import Mathlib

/-!
Shallow embedding of the DKA game backend room coordinator
(`src/unnamed/part_000`): room registry, join/ready/kick/update/disconnect
handlers, the auto-start evaluator `checkAndStartGame`, and the delayed
reset action scheduled on game over.  Handlers are pure functions from a
registry (plus the current clock value `now`) to a new registry together
with the list of emitted events and, for `update_player`, the list of
newly scheduled reset timers.
-/

namespace DKA

/-- Player status strings `'ALIVE' | 'DEAD' | 'FINISHED'`. -/
inductive PStatus where
  | ALIVE
  | DEAD
  | FINISHED
deriving DecidableEq, Repr

/-- Room status strings `'LOBBY' | 'PLAYING' | 'GAME_OVER'`. -/
inductive RStatus where
  | LOBBY
  | PLAYING
  | GAME_OVER
deriving DecidableEq, Repr

/-- A player object as built in the `join_room` handler. -/
structure Player where
  id : String
  name : String
  isReady : Bool
  score : Int
  status : PStatus
deriving DecidableEq, Repr

/-- A room: ordered player list plus lifecycle status. -/
structure Room where
  players : List Player
  status : RStatus
deriving DecidableEq, Repr

/-- The process-wide `rooms` object, as an association list keyed by room id. -/
abbrev Registry := List (String × Room)

/-- `SERVER_CONFIG.REQUIRED_PLAYERS`. -/
def REQUIRED_PLAYERS : Nat := 2

/-- `SERVER_CONFIG.LEADERBOARD_DURATION` (milliseconds). -/
def LEADERBOARD_DURATION : Nat := 10000

/-- Outbound socket events emitted by the handlers. -/
inductive Event where
  | error_msg (target msg : String)
  | room_update (roomId : String) (players : List Player)
  | start_game (roomId : String) (startTime : Nat)
  | player_updated (roomId : String) (p : Player)
  | force_game_over (roomId : String) (players : List Player) (resetTime : Nat)
  | kicked (target : String)
deriving DecidableEq, Repr

/-- A scheduled one-shot reset action (the `setTimeout` in `update_player`). -/
structure ResetTimer where
  roomId : String
  fireAt : Nat
deriving DecidableEq, Repr

/-- `rooms[rid]` lookup. -/
def lookupRoom (rid : String) : Registry → Option Room
  | [] => none
  | (k, v) :: rest => if k = rid then some v else lookupRoom rid rest

/-- `rooms[rid] = room` assignment (insert or overwrite). -/
def setRoom (rid : String) (room : Room) : Registry → Registry
  | [] => [(rid, room)]
  | (k, v) :: rest =>
    if k = rid then (rid, room) :: rest else (k, v) :: setRoom rid room rest

/-- `delete rooms[rid]`. -/
def eraseRoom (rid : String) : Registry → Registry
  | [] => []
  | (k, v) :: rest => if k = rid then rest else (k, v) :: eraseRoom rid rest

/-- Mutate the first player satisfying `f` (JS `find` + in-place mutation). -/
def updateFirst (f : Player → Bool) (g : Player → Player) : List Player → List Player
  | [] => []
  | p :: rest => if f p then g p :: rest else p :: updateFirst f g rest

/-- Remove the first player satisfying `f` (JS `findIndex` + `splice(i, 1)`). -/
def removeFirst (f : Player → Bool) : List Player → List Player
  | [] => []
  | p :: rest => if f p then rest else p :: removeFirst f rest

/-- `checkAndStartGame`: auto-start when the room is full and everyone is ready. -/
def checkAndStartGame (now : Nat) (roomId : String) (R : Registry) :
    Registry × List Event :=
  match lookupRoom roomId R with
  | none => (R, [])
  | some room =>
    if room.players.length = REQUIRED_PLAYERS ∧
        room.players.all (fun p => p.isReady) = true then
      if room.status ≠ RStatus.PLAYING then
        (setRoom roomId { room with status := RStatus.PLAYING } R,
         [Event.start_game roomId (now + 3000)])
      else (R, [])
    else (R, [])

/-- Default display name: `` `Agent ${socket.id.substr(0,4)}` ``. -/
def defaultName (socketId : String) : String := "Agent " ++ socketId.take 4

/-- The fresh player object pushed by `join_room` (`name || default`,
with the empty string falsy in JS). -/
def newPlayer (socketId : String) (name : Option String) : Player :=
  { id := socketId
    name :=
      match name with
      | some n => if n = "" then defaultName socketId else n
      | none => defaultName socketId
    isReady := false
    score := 0
    status := PStatus.ALIVE }

/-- Commit the updated player list, broadcast it, then re-run the
auto-start check — the shared tail of `join_room` and `toggle_ready`. -/
def broadcastAndCheck (now : Nat) (roomId : String) (players1 : List Player)
    (R1 : Registry) : Registry × List Event :=
  ((checkAndStartGame now roomId R1).1,
   Event.room_update roomId players1 :: (checkAndStartGame now roomId R1).2)

/-- Body of `join_room` after `const room = rooms[roomId]`: `R` already
contains `room` under `roomId`. -/
def joinLogic (now : Nat) (socketId roomId : String) (name : Option String)
    (room : Room) (R : Registry) : Registry × List Event :=
  if room.status = RStatus.PLAYING then
    (R, [Event.error_msg socketId "Mission already in progress. Access Denied."])
  else if REQUIRED_PLAYERS ≤ room.players.length then
    (R, [Event.error_msg socketId
      ("Team is full (Max " ++ toString REQUIRED_PLAYERS ++ " Agents).")])
  else
    broadcastAndCheck now roomId (room.players ++ [newPlayer socketId name])
      (setRoom roomId { room with players := room.players ++ [newPlayer socketId name] } R)

/-- The `join_room` handler: lazily create the room, then run the join logic. -/
def join_room (now : Nat) (socketId roomId : String) (name : Option String)
    (R : Registry) : Registry × List Event :=
  match lookupRoom roomId R with
  | none =>
    joinLogic now socketId roomId name { players := [], status := RStatus.LOBBY }
      (setRoom roomId { players := [], status := RStatus.LOBBY } R)
  | some room => joinLogic now socketId roomId name room R

/-- The `toggle_ready` handler. -/
def toggle_ready (now : Nat) (socketId roomId : String) (R : Registry) :
    Registry × List Event :=
  match lookupRoom roomId R with
  | none => (R, [])
  | some room =>
    match room.players.find? (fun p => p.id == socketId) with
    | none => (R, [])
    | some _ =>
      broadcastAndCheck now roomId
        (updateFirst (fun p => p.id == socketId)
          (fun p => { p with isReady := !p.isReady }) room.players)
        (setRoom roomId
          { room with
              players := updateFirst (fun p => p.id == socketId)
                (fun p => { p with isReady := !p.isReady }) room.players } R)

/-- The `kick_player` handler: captain-only, no self-kick, remove the target
if present. -/
def kick_player (socketId roomId targetId : String) (R : Registry) :
    Registry × List Event :=
  match lookupRoom roomId R with
  | none => (R, [])
  | some room =>
    match room.players with
    | [] => (R, [])
    | captain :: _ =>
      if captain.id = socketId then
        if targetId = socketId then (R, [])
        else if room.players.any (fun p => p.id == targetId) then
          (setRoom roomId
            { room with players := removeFirst (fun p => p.id == targetId) room.players } R,
           [Event.kicked targetId,
            Event.room_update roomId (removeFirst (fun p => p.id == targetId) room.players)])
        else (R, [])
      else (R, [])

/-- Overwrite the sender's `score` and `status` in the player list. -/
def applyUpdate (socketId : String) (score : Int) (status : PStatus)
    (l : List Player) : List Player :=
  updateFirst (fun p => p.id == socketId)
    (fun p => { p with score := score, status := status }) l

/-- `allDone`: every player is DEAD or FINISHED. -/
def allDone (l : List Player) : Bool :=
  l.all (fun p => p.status == PStatus.DEAD || p.status == PStatus.FINISHED)

/-- The `update_player` handler: last-write-wins score/status, then the
end-of-session check that transitions PLAYING → GAME_OVER and schedules
the reset timer. -/
def update_player (now : Nat) (socketId roomId : String) (score : Int)
    (status : PStatus) (R : Registry) :
    Registry × List Event × List ResetTimer :=
  match lookupRoom roomId R with
  | none => (R, [], [])
  | some room =>
    match room.players.find? (fun p => p.id == socketId) with
    | none => (R, [], [])
    | some p =>
      if allDone (applyUpdate socketId score status room.players) = true ∧
          room.status = RStatus.PLAYING then
        (setRoom roomId
          { players := applyUpdate socketId score status room.players,
            status := RStatus.GAME_OVER } R,
         [Event.player_updated roomId { p with score := score, status := status },
          Event.force_game_over roomId (applyUpdate socketId score status room.players)
            (now + LEADERBOARD_DURATION)],
         [{ roomId := roomId, fireAt := now + LEADERBOARD_DURATION }])
      else
        (setRoom roomId
          { room with players := applyUpdate socketId score status room.players } R,
         [Event.player_updated roomId { p with score := score, status := status }],
         [])

/-- The captain's state after reset: `isReady=false, score=0, status=ALIVE`. -/
def resetCaptain (c : Player) : Player :=
  { c with isReady := false, score := 0, status := PStatus.ALIVE }

/-- The reset action fired by the `setTimeout` scheduled in `update_player`. -/
def resetAction (roomId : String) (R : Registry) : Registry × List Event :=
  match lookupRoom roomId R with
  | none => (R, [])
  | some room =>
    if room.status ≠ RStatus.GAME_OVER then (R, [])
    else
      match room.players with
      | [] => (eraseRoom roomId R, [])
      | captain :: others =>
        (setRoom roomId
          { players := [resetCaptain captain], status := RStatus.LOBBY } R,
         others.map (fun p => Event.kicked p.id) ++
           [Event.room_update roomId [resetCaptain captain]])

/-- The `disconnect` handler: scan every room, remove the first player with
the disconnecting id, delete rooms that become empty, broadcast otherwise. -/
def disconnect (socketId : String) : Registry → Registry × List Event
  | [] => ([], [])
  | (rid, room) :: rest =>
    let out := disconnect socketId rest
    if room.players.any (fun p => p.id == socketId) then
      let players1 := removeFirst (fun p => p.id == socketId) room.players
      if players1 = [] then out
      else ((rid, { room with players := players1 }) :: out.1,
            Event.room_update rid players1 :: out.2)
    else ((rid, room) :: out.1, out.2)

/-- One inbound operation on the coordinator. -/
inductive Op where
  | join (socketId roomId : String) (name : Option String)
  | toggle (socketId roomId : String)
  | kick (socketId roomId targetId : String)
  | update (socketId roomId : String) (score : Int) (status : PStatus)
  | disc (socketId : String)
  | reset (roomId : String)
deriving DecidableEq, Repr

/-- Apply one operation to the registry at clock value `now`. -/
def applyOp (now : Nat) (op : Op) (R : Registry) : Registry × List Event :=
  match op with
  | Op.join s rid n => join_room now s rid n R
  | Op.toggle s rid => toggle_ready now s rid R
  | Op.kick s rid t => kick_player s rid t R
  | Op.update s rid sc st => ((update_player now s rid sc st R).1, (update_player now s rid sc st R).2.1)
  | Op.disc s => disconnect s R
  | Op.reset rid => resetAction rid R

/-- Registries reachable from the empty registry by any sequence of
operations (including reset-timer firings) at arbitrary clock values. -/
inductive Reachable : Registry → Prop where
  | init : Reachable []
  | next (now : Nat) (op : Op) {R : Registry} :
      Reachable R → Reachable (applyOp now op R).1

/-! ### Registry lemmas -/

theorem lookupRoom_setRoom_self (rid : String) (room : Room) (R : Registry) :
    lookupRoom rid (setRoom rid room R) = some room := by
  induction R with
  | nil => simp [setRoom, lookupRoom]
  | cons q rest ih =>
    obtain ⟨k, v⟩ := q
    by_cases hk : k = rid
    · simp [setRoom, hk, lookupRoom]
    · simp [setRoom, hk, lookupRoom, ih]

/-! ### Claim theorems -/

/-- Claim C2: the auto-start check moves the room to PLAYING and emits one
`start_game` carrying `now + 3000` exactly when the room is full, everyone
is ready and the room is not already PLAYING; while the room is PLAYING, or
while the fullness/readiness predicate fails, it changes nothing and emits
nothing. -/
theorem autostart_characterization (now : Nat) (roomId : String) (R : Registry)
    (room : Room) (h : lookupRoom roomId R = some room) :
    (room.players.length = REQUIRED_PLAYERS ∧
        room.players.all (fun p => p.isReady) = true ∧
        room.status ≠ RStatus.PLAYING →
      checkAndStartGame now roomId R =
        (setRoom roomId { room with status := RStatus.PLAYING } R,
         [Event.start_game roomId (now + 3000)])) ∧
    (room.status = RStatus.PLAYING → checkAndStartGame now roomId R = (R, [])) ∧
    (¬ (room.players.length = REQUIRED_PLAYERS ∧
        room.players.all (fun p => p.isReady) = true) →
      checkAndStartGame now roomId R = (R, []))
  := by
  refine ⟨fun hc => ?_, fun hp => ?_, fun hn => ?_⟩
  · simp [checkAndStartGame, h, hc.1, hc.2.1, hc.2.2]
  · simp [checkAndStartGame, h, hp]
  · simp only [checkAndStartGame, h]
    rw [if_neg hn]

/-- Two ready players in a LOBBY room, for the C2 witness. -/
def roomC2 : Room :=
  { players :=
      [{ id := "a", name := "a", isReady := true, score := 0, status := PStatus.ALIVE },
       { id := "b", name := "b", isReady := true, score := 0, status := PStatus.ALIVE }],
    status := RStatus.LOBBY }

def regC2 : Registry := [("r", roomC2)]

/-- Witness for C2: a full all-ready LOBBY room auto-starts. -/
theorem autostart_characterization_witness :
    checkAndStartGame 5 "r" regC2 =
      (setRoom "r" { roomC2 with status := RStatus.PLAYING } regC2,
       [Event.start_game "r" (5 + 3000)]) :=
  (autostart_characterization 5 "r" regC2 roomC2 rfl).1 ⟨rfl, rfl, by decide⟩

/-- Claim C5: the reset action aborts, leaving the registry untouched and
emitting nothing, when the room no longer exists or its status is not
GAME_OVER. -/
theorem reset_guard_abort (roomId : String) (R : Registry)
    (h : lookupRoom roomId R = none ∨
      ∃ room, lookupRoom roomId R = some room ∧ room.status ≠ RStatus.GAME_OVER) :
    resetAction roomId R = (R, []) := by
  rcases h with h | ⟨room, h, hs⟩
  · simp [resetAction, h]
  · simp [resetAction, h, hs]

/-- Witness for C5: firing the reset on a registry without the room is a no-op. -/
theorem reset_guard_abort_witness : resetAction "r" [] = ([], []) :=
  reset_guard_abort "r" [] (Or.inl rfl)

/-- Claim C7: joining a room whose status is PLAYING is always rejected with
an error to the requester only, and the whole registry is unchanged. -/
theorem join_playing_rejected (now : Nat) (socketId roomId : String)
    (name : Option String) (R : Registry) (room : Room)
    (h : lookupRoom roomId R = some room) (hs : room.status = RStatus.PLAYING) :
    join_room now socketId roomId name R =
      (R, [Event.error_msg socketId "Mission already in progress. Access Denied."]) := by
  simp [join_room, h, joinLogic, hs]

/-- A PLAYING room with two players, for the C7 witness. -/
def roomC7 : Room :=
  { players :=
      [{ id := "a", name := "a", isReady := true, score := 3, status := PStatus.ALIVE },
       { id := "b", name := "b", isReady := true, score := 1, status := PStatus.ALIVE }],
    status := RStatus.PLAYING }

def regC7 : Registry := [("r", roomC7)]

/-- Witness for C7: a join against a PLAYING room is rejected unchanged. -/
theorem join_playing_rejected_witness :
    join_room 9 "c" "r" (some "Eve") regC7 =
      (regC7, [Event.error_msg "c" "Mission already in progress. Access Denied."]) :=
  join_playing_rejected 9 "c" "r" (some "Eve") regC7 roomC7 rfl rfl

/-- Claim C10: joining a room with status GAME_OVER and a non-full player
list is not rejected: the new player (unready, score 0, ALIVE) is appended
and the updated list broadcast. -/
theorem join_gameover_appends (now : Nat) (socketId roomId : String)
    (name : Option String) (R : Registry) (room : Room)
    (h : lookupRoom roomId R = some room) (hs : room.status = RStatus.GAME_OVER)
    (hlen : room.players.length < REQUIRED_PLAYERS) :
    join_room now socketId roomId name R =
      (setRoom roomId { room with players := room.players ++ [newPlayer socketId name] } R,
       [Event.room_update roomId (room.players ++ [newPlayer socketId name])]) ∧
    (newPlayer socketId name).isReady = false ∧
    (newPlayer socketId name).score = 0 ∧
    (newPlayer socketId name).status = PStatus.ALIVE := by
  refine ⟨?_, rfl, rfl, rfl⟩
  have hs' : room.status ≠ RStatus.PLAYING := by rw [hs]; decide
  simp only [join_room, h, joinLogic, if_neg hs', if_neg (Nat.not_le.mpr hlen)]
  simp [broadcastAndCheck, checkAndStartGame, lookupRoom_setRoom_self, newPlayer]

/-- A GAME_OVER room holding only its captain, for the C10 witness. -/
def roomC10 : Room :=
  { players :=
      [{ id := "a", name := "a", isReady := true, score := 9, status := PStatus.FINISHED }],
    status := RStatus.GAME_OVER }

def regC10 : Registry := [("r", roomC10)]

/-- Witness for C10: a join during the leaderboard window is accepted. -/
theorem join_gameover_appends_witness :
    join_room 4 "b" "r" none regC10 =
      (setRoom "r" { roomC10 with players := roomC10.players ++ [newPlayer "b" none] } regC10,
       [Event.room_update "r" (roomC10.players ++ [newPlayer "b" none])]) ∧
    (newPlayer "b" none).isReady = false ∧
    (newPlayer "b" none).score = 0 ∧
    (newPlayer "b" none).status = PStatus.ALIVE :=
  join_gameover_appends 4 "b" "r" none regC10 roomC10 rfl rfl (by decide)

/-- Claim C3: when an update from an existing player leaves every player
DEAD or FINISHED while the room is PLAYING, the room moves to GAME_OVER,
exactly one `force_game_over` is emitted carrying the player list and
`now + LEADERBOARD_DURATION`, and exactly one reset timer is scheduled for
that instant; otherwise the room status is untouched, no `force_game_over`
is emitted and no timer is scheduled. -/
theorem update_gameover_characterization (now : Nat) (socketId roomId : String)
    (score : Int) (status : PStatus) (R : Registry) (room : Room) (p : Player)
    (h : lookupRoom roomId R = some room)
    (hp : room.players.find? (fun q => q.id == socketId) = some p) :
    (allDone (applyUpdate socketId score status room.players) = true ∧
        room.status = RStatus.PLAYING →
      update_player now socketId roomId score status R =
        (setRoom roomId
          { players := applyUpdate socketId score status room.players,
            status := RStatus.GAME_OVER } R,
         [Event.player_updated roomId { p with score := score, status := status },
          Event.force_game_over roomId (applyUpdate socketId score status room.players)
            (now + LEADERBOARD_DURATION)],
         [{ roomId := roomId, fireAt := now + LEADERBOARD_DURATION }])) ∧
    (¬ (allDone (applyUpdate socketId score status room.players) = true ∧
        room.status = RStatus.PLAYING) →
      update_player now socketId roomId score status R =
        (setRoom roomId
          { room with players := applyUpdate socketId score status room.players } R,
         [Event.player_updated roomId { p with score := score, status := status }],
         [])) := by
  constructor
  · intro hc
    simp only [update_player, h, hp]
    rw [if_pos hc]
  · intro hn
    simp only [update_player, h, hp]
    rw [if_neg hn]

/-- A PLAYING room where one player is already DEAD, for the C3 witness. -/
def roomC3 : Room :=
  { players :=
      [{ id := "a", name := "a", isReady := true, score := 2, status := PStatus.DEAD },
       { id := "b", name := "b", isReady := true, score := 5, status := PStatus.ALIVE }],
    status := RStatus.PLAYING }

def regC3 : Registry := [("r", roomC3)]

def playerC3b : Player :=
  { id := "b", name := "b", isReady := true, score := 5, status := PStatus.ALIVE }

/-- Witness for C3: the last live player reporting FINISHED forces game over,
one broadcast, one timer. -/
theorem update_gameover_characterization_witness :
    update_player 7 "b" "r" 6 PStatus.FINISHED regC3 =
      (setRoom "r"
        { players := applyUpdate "b" 6 PStatus.FINISHED roomC3.players,
          status := RStatus.GAME_OVER } regC3,
       [Event.player_updated "r" { playerC3b with score := 6, status := PStatus.FINISHED },
        Event.force_game_over "r" (applyUpdate "b" 6 PStatus.FINISHED roomC3.players)
          (7 + LEADERBOARD_DURATION)],
       [{ roomId := "r", fireAt := 7 + LEADERBOARD_DURATION }]) :=
  (update_gameover_characterization 7 "b" "r" 6 PStatus.FINISHED regC3 roomC3
    playerC3b rfl rfl).1 ⟨rfl, rfl⟩

/-- Claim C4: when the reset action fires on a GAME_OVER room with a
non-empty player list, the room afterwards holds exactly the old index-0
player with `isReady=false, score=0, status=ALIVE`, its status is LOBBY, and
every non-captain previously in the list is sent a `kicked` notification;
on an empty player list the room is deleted instead. -/
theorem reset_fires_characterization (roomId : String) (R : Registry) (room : Room)
    (h : lookupRoom roomId R = some room) (hs : room.status = RStatus.GAME_OVER) :
    (∀ captain rest, room.players = captain :: rest →
      resetAction roomId R =
        (setRoom roomId { players := [resetCaptain captain], status := RStatus.LOBBY } R,
         rest.map (fun p => Event.kicked p.id) ++
           [Event.room_update roomId [resetCaptain captain]]) ∧
      lookupRoom roomId (resetAction roomId R).1 =
        some { players := [resetCaptain captain], status := RStatus.LOBBY }) ∧
    (room.players = [] → resetAction roomId R = (eraseRoom roomId R, [])) := by
  constructor
  · intro captain rest hpl
    have hres : resetAction roomId R =
        (setRoom roomId { players := [resetCaptain captain], status := RStatus.LOBBY } R,
         rest.map (fun p => Event.kicked p.id) ++
           [Event.room_update roomId [resetCaptain captain]]) := by
      simp [resetAction, h, hs, hpl]
    exact ⟨hres, by rw [hres]; exact lookupRoom_setRoom_self roomId _ R⟩
  · intro hpl
    simp [resetAction, h, hs, hpl]

/-- A finished GAME_OVER room with captain "a" and one other player, for
the C4 witness. -/
def roomC4 : Room :=
  { players :=
      [{ id := "a", name := "a", isReady := true, score := 2, status := PStatus.DEAD },
       { id := "b", name := "b", isReady := true, score := 6, status := PStatus.FINISHED }],
    status := RStatus.GAME_OVER }

def regC4 : Registry := [("r", roomC4)]

def playerC4a : Player :=
  { id := "a", name := "a", isReady := true, score := 2, status := PStatus.DEAD }

def playerC4b : Player :=
  { id := "b", name := "b", isReady := true, score := 6, status := PStatus.FINISHED }

/-- Witness for C4: the reset purges "b" with a kicked notification and keeps
the reset captain "a" in a LOBBY room. -/
theorem reset_fires_characterization_witness :
    resetAction "r" regC4 =
      (setRoom "r" { players := [resetCaptain playerC4a], status := RStatus.LOBBY } regC4,
       [playerC4b].map (fun p => Event.kicked p.id) ++
         [Event.room_update "r" [resetCaptain playerC4a]]) ∧
    lookupRoom "r" (resetAction "r" regC4).1 =
      some { players := [resetCaptain playerC4a], status := RStatus.LOBBY } :=
  (reset_fires_characterization "r" regC4 roomC4 rfl rfl).1 playerC4a [playerC4b] rfl

/-- The kick authorization predicate of the amended claim C6: the requester
is the captain, the target is not the requester, and the target is present. -/
def kickAllowed (socketId targetId : String) (room : Room) : Bool :=
  match room.players with
  | [] => false
  | captain :: _ =>
    captain.id == socketId && targetId != socketId &&
      room.players.any (fun p => p.id == targetId)

/-- A LOBBY room holding only its captain "a", for the C6 counterexample. -/
def roomC6 : Room :=
  { players :=
      [{ id := "a", name := "a", isReady := false, score := 0, status := PStatus.ALIVE }],
    status := RStatus.LOBBY }

def regC6 : Registry := [("r", roomC6)]

/-- Counterexample to claim C6 as stated: the requester "a" equals
`players[0].id` and the target "b" differs from the requester, yet
`kick_player` removes nobody, sends nothing and leaves the room unchanged,
because "b" is not in the room. -/
theorem kick_iff_counterexample :
    lookupRoom "r" regC6 = some roomC6 ∧
    roomC6.players.map Player.id = ["a"] ∧
    ("b" : String) ≠ "a" ∧
    kick_player "a" "r" "b" regC6 = (regC6, []) :=
  ⟨rfl, rfl, by decide, rfl⟩

/-- Amended claim C6: a kick succeeds — removing the first player with the
target id, sending `kicked` to the target and broadcasting the updated
list — exactly when the requester is `players[0].id`, the target differs
from the requester, AND the target id is present in the room; in every
other case the room state is unchanged and nothing is emitted. -/
theorem kick_characterization (socketId roomId targetId : String) (R : Registry)
    (room : Room) (h : lookupRoom roomId R = some room) :
    (kickAllowed socketId targetId room = true →
      kick_player socketId roomId targetId R =
        (setRoom roomId
          { room with players := removeFirst (fun p => p.id == targetId) room.players } R,
         [Event.kicked targetId,
          Event.room_update roomId (removeFirst (fun p => p.id == targetId) room.players)])) ∧
    (kickAllowed socketId targetId room = false →
      kick_player socketId roomId targetId R = (R, [])) := by
  obtain ⟨pl, st⟩ := room
  constructor
  · intro ha
    cases pl with
    | nil => simp [kickAllowed] at ha
    | cons captain rest =>
      simp only [kickAllowed, Bool.and_eq_true, beq_iff_eq, bne_iff_ne, ne_eq] at ha
      obtain ⟨⟨hcap, htgt⟩, hany⟩ := ha
      simp only [kick_player, h, if_pos hcap, if_neg htgt, if_pos hany]
  · intro ha
    cases pl with
    | nil => simp [kick_player, h]
    | cons captain rest =>
      simp only [kickAllowed] at ha
      simp only [kick_player, h]
      by_cases hcap : captain.id = socketId
      · by_cases htgt : targetId = socketId
        · rw [if_pos hcap, if_pos htgt]
        · rw [if_pos hcap, if_neg htgt]
          have hany : ((captain :: rest).any fun p => p.id == targetId) = false := by
            cases hk : ((captain :: rest).any fun p => p.id == targetId) with
            | false => rfl
            | true => simp [hcap, htgt, hk] at ha
          rw [if_neg (by simp [hany])]
      · rw [if_neg hcap]

/-- A two-player LOBBY room with captain "a", for the C6 witness. -/
def roomC6w : Room :=
  { players :=
      [{ id := "a", name := "a", isReady := false, score := 0, status := PStatus.ALIVE },
       { id := "b", name := "b", isReady := false, score := 0, status := PStatus.ALIVE }],
    status := RStatus.LOBBY }

def regC6w : Registry := [("r", roomC6w)]

/-- Witness for amended C6: the captain successfully kicks the other player. -/
theorem kick_characterization_witness :
    kick_player "a" "r" "b" regC6w =
      (setRoom "r"
        { roomC6w with players := removeFirst (fun p => p.id == "b") roomC6w.players } regC6w,
       [Event.kicked "b",
        Event.room_update "r" (removeFirst (fun p => p.id == "b") roomC6w.players)]) :=
  (kick_characterization "a" "r" "b" regC6w roomC6w rfl).1 rfl

/-! ### Disconnect lemmas -/

/-- What `disconnect` does to one room: remove the first player with the
disconnecting id; a room left empty disappears. -/
def dropPlayer (socketId : String) (room : Room) : Option Room :=
  if (room.players.any fun p => p.id == socketId) = true then
    if removeFirst (fun p => p.id == socketId) room.players = [] then none
    else some { room with players := removeFirst (fun p => p.id == socketId) room.players }
  else some room

theorem lookupRoom_cons_self (k : String) (v : Room) (rest : Registry) :
    lookupRoom k ((k, v) :: rest) = some v := by
  simp [lookupRoom]

theorem lookupRoom_cons_ne {k rid : String} (hk : k ≠ rid) (v : Room)
    (rest : Registry) : lookupRoom rid ((k, v) :: rest) = lookupRoom rid rest := by
  simp only [lookupRoom, if_neg hk]

theorem dropPlayer_not_in (s : String) (room : Room)
    (hno : (room.players.any fun p => p.id == s) = false) :
    dropPlayer s room = some room := by
  unfold dropPlayer
  rw [if_neg (by rw [hno]; exact Bool.false_ne_true)]

theorem dropPlayer_to_empty (s : String) (room : Room)
    (hin : (room.players.any fun p => p.id == s) = true)
    (hemp : removeFirst (fun p => p.id == s) room.players = []) :
    dropPlayer s room = none := by
  unfold dropPlayer
  rw [if_pos hin, if_pos hemp]

theorem dropPlayer_stay (s : String) (room : Room)
    (hin : (room.players.any fun p => p.id == s) = true)
    (hne : removeFirst (fun p => p.id == s) room.players ≠ []) :
    dropPlayer s room =
      some { room with players := removeFirst (fun p => p.id == s) room.players } := by
  unfold dropPlayer
  rw [if_pos hin, if_neg hne]

theorem lookupRoom_eq_none (rid : String) (R : Registry) :
    lookupRoom rid R = none ↔ rid ∉ R.map Prod.fst := by
  induction R with
  | nil => simp [lookupRoom]
  | cons q rest ih =>
    obtain ⟨k, v⟩ := q
    by_cases hk : k = rid
    · subst hk
      simp [lookupRoom_cons_self]
    · rw [lookupRoom_cons_ne hk, ih, List.map_cons]
      constructor
      · intro hn hmem
        rcases List.mem_cons.mp hmem with h1 | h1
        · exact hk h1.symm
        · exact hn h1
      · intro hn h1
        exact hn (List.mem_cons.mpr (Or.inr h1))

theorem disconnect_lookup_none (s rid : String) (R : Registry)
    (h : lookupRoom rid R = none) :
    lookupRoom rid (disconnect s R).1 = none := by
  induction R with
  | nil => simpa [disconnect] using h
  | cons q rest ih =>
    obtain ⟨k, v⟩ := q
    by_cases hk : k = rid
    · subst hk
      rw [lookupRoom_cons_self] at h
      exact absurd h (by simp)
    · rw [lookupRoom_cons_ne hk] at h
      have hr := ih h
      simp only [disconnect]
      by_cases hin : (v.players.any fun p => p.id == s) = true
      · rw [if_pos hin]
        by_cases hemp : removeFirst (fun p => p.id == s) v.players = []
        · rw [if_pos hemp]; exact hr
        · rw [if_neg hemp, lookupRoom_cons_ne hk]; exact hr
      · rw [if_neg hin, lookupRoom_cons_ne hk]; exact hr

theorem disconnect_lookup (s rid : String) (R : Registry)
    (hkeys : (R.map Prod.fst).Nodup) :
    lookupRoom rid (disconnect s R).1 = (lookupRoom rid R).bind (dropPlayer s) := by
  induction R with
  | nil => simp [disconnect, lookupRoom]
  | cons q rest ih =>
    obtain ⟨k, v⟩ := q
    simp only [List.map_cons, List.nodup_cons] at hkeys
    obtain ⟨hknotin, hrest⟩ := hkeys
    have ihr := ih hrest
    by_cases hk : k = rid
    · subst hk
      have hnone : lookupRoom k rest = none := (lookupRoom_eq_none k rest).2 hknotin
      have hrhs : (lookupRoom k ((k, v) :: rest)).bind (dropPlayer s) = dropPlayer s v := by
        rw [lookupRoom_cons_self]
        rfl
      rw [hrhs]
      simp only [disconnect]
      by_cases hin : (v.players.any fun p => p.id == s) = true
      · rw [if_pos hin]
        by_cases hemp : removeFirst (fun p => p.id == s) v.players = []
        · rw [if_pos hemp, disconnect_lookup_none s k rest hnone,
            dropPlayer_to_empty s v hin hemp]
        · rw [if_neg hemp, dropPlayer_stay s v hin hemp, lookupRoom_cons_self]
      · rw [if_neg hin, dropPlayer_not_in s v (Bool.eq_false_iff.mpr hin),
          lookupRoom_cons_self]
    · have hrhs : (lookupRoom rid ((k, v) :: rest)).bind (dropPlayer s) =
          (lookupRoom rid rest).bind (dropPlayer s) := by
        rw [lookupRoom_cons_ne hk]
      rw [hrhs, ← ihr]
      simp only [disconnect]
      by_cases hin : (v.players.any fun p => p.id == s) = true
      · rw [if_pos hin]
        by_cases hemp : removeFirst (fun p => p.id == s) v.players = []
        · rw [if_pos hemp]
        · rw [if_neg hemp, lookupRoom_cons_ne hk]
      · rw [if_neg hin, lookupRoom_cons_ne hk]

theorem disconnect_event_mem (s rid : String) (R : Registry) (room : Room)
    (h : lookupRoom rid R = some room)
    (hin : (room.players.any fun p => p.id == s) = true)
    (hne : removeFirst (fun p => p.id == s) room.players ≠ []) :
    Event.room_update rid (removeFirst (fun p => p.id == s) room.players) ∈
      (disconnect s R).2 := by
  induction R with
  | nil => simp [lookupRoom] at h
  | cons q rest ih =>
    obtain ⟨k, v⟩ := q
    simp only [lookupRoom] at h
    by_cases hk : k = rid
    · rw [if_pos hk] at h
      injection h with h
      subst h
      subst hk
      simp only [disconnect]
      rw [if_pos hin, if_neg hne]
      exact List.mem_cons_self _ _
    · rw [if_neg hk] at h
      have hr := ih h
      simp only [disconnect]
      by_cases hin2 : (v.players.any fun p => p.id == s) = true
      · rw [if_pos hin2]
        by_cases hemp : removeFirst (fun p => p.id == s) v.players = []
        · rw [if_pos hemp]; exact hr
        · rw [if_neg hemp]; exact List.mem_cons_of_mem _ hr
      · rw [if_neg hin2]; exact hr

/-- Claim C8: on disconnect, a room not containing the leaver is untouched;
a room whose only players entry was the leaver is deleted from the registry;
otherwise the leaver is removed, the reduced list is broadcast and — since no
auto-start or end-of-session check runs — the room keeps its status verbatim
(a PLAYING room stays PLAYING with fewer than `REQUIRED_PLAYERS` players). -/
theorem disconnect_characterization (socketId rid : String) (R : Registry)
    (room : Room) (hkeys : (R.map Prod.fst).Nodup)
    (h : lookupRoom rid R = some room) :
    ((room.players.any fun p => p.id == socketId) = false →
      lookupRoom rid (disconnect socketId R).1 = some room) ∧
    ((room.players.any fun p => p.id == socketId) = true →
      removeFirst (fun p => p.id == socketId) room.players = [] →
      lookupRoom rid (disconnect socketId R).1 = none) ∧
    ((room.players.any fun p => p.id == socketId) = true →
      removeFirst (fun p => p.id == socketId) room.players ≠ [] →
      lookupRoom rid (disconnect socketId R).1 =
        some { room with players := removeFirst (fun p => p.id == socketId) room.players } ∧
      Event.room_update rid (removeFirst (fun p => p.id == socketId) room.players) ∈
        (disconnect socketId R).2) := by
  have hl := disconnect_lookup socketId rid R hkeys
  rw [h] at hl
  refine ⟨fun hno => ?_, fun hin hemp => ?_,
    fun hin hne => ⟨?_, disconnect_event_mem socketId rid R room h hin hne⟩⟩
  · rw [hl]; exact dropPlayer_not_in socketId room hno
  · rw [hl]; exact dropPlayer_to_empty socketId room hin hemp
  · rw [hl]; exact dropPlayer_stay socketId room hin hne

/-- A PLAYING room with two players, for the C8 witness. -/
def roomC8 : Room :=
  { players :=
      [{ id := "a", name := "a", isReady := true, score := 4, status := PStatus.ALIVE },
       { id := "b", name := "b", isReady := true, score := 2, status := PStatus.ALIVE }],
    status := RStatus.PLAYING }

def regC8 : Registry := [("r", roomC8)]

/-- Witness for C8: player "b" disconnecting from a PLAYING room leaves a
one-player room that is still PLAYING, and the reduced list was broadcast. -/
theorem disconnect_characterization_witness :
    (lookupRoom "r" (disconnect "b" regC8).1 =
      some { roomC8 with players := removeFirst (fun p => p.id == "b") roomC8.players } ∧
     Event.room_update "r" (removeFirst (fun p => p.id == "b") roomC8.players) ∈
       (disconnect "b" regC8).2) ∧
    ({ roomC8 with
        players := removeFirst (fun p => p.id == "b") roomC8.players }).status =
      RStatus.PLAYING ∧
    (removeFirst (fun p => p.id == "b") roomC8.players).length < REQUIRED_PLAYERS :=
  ⟨(disconnect_characterization "b" "r" regC8 roomC8 (by decide) rfl).2.2 rfl
      (by decide),
   rfl, by decide⟩

/-! ### The capacity invariant (claim C1) -/

theorem mem_setRoom {rid : String} {room : Room} {p : String × Room} {R : Registry}
    (h : p ∈ setRoom rid room R) : p = (rid, room) ∨ p ∈ R := by
  induction R with
  | nil =>
    simp only [setRoom, List.mem_singleton] at h
    exact Or.inl h
  | cons q rest ih =>
    obtain ⟨k, v⟩ := q
    by_cases hk : k = rid
    · rw [setRoom, if_pos hk] at h
      rcases List.mem_cons.mp h with h1 | h1
      · exact Or.inl h1
      · exact Or.inr (List.mem_cons_of_mem _ h1)
    · rw [setRoom, if_neg hk] at h
      rcases List.mem_cons.mp h with h1 | h1
      · exact Or.inr (by rw [h1]; exact List.mem_cons_self _ _)
      · rcases ih h1 with h2 | h2
        · exact Or.inl h2
        · exact Or.inr (List.mem_cons_of_mem _ h2)

theorem mem_eraseRoom {rid : String} {p : String × Room} {R : Registry}
    (h : p ∈ eraseRoom rid R) : p ∈ R := by
  induction R with
  | nil => simp [eraseRoom] at h
  | cons q rest ih =>
    obtain ⟨k, v⟩ := q
    by_cases hk : k = rid
    · rw [eraseRoom, if_pos hk] at h
      exact List.mem_cons_of_mem _ h
    · rw [eraseRoom, if_neg hk] at h
      rcases List.mem_cons.mp h with h1 | h1
      · rw [h1]; exact List.mem_cons_self _ _
      · exact List.mem_cons_of_mem _ (ih h1)

theorem lookupRoom_mem {rid : String} {room : Room} {R : Registry}
    (h : lookupRoom rid R = some room) : (rid, room) ∈ R := by
  induction R with
  | nil => simp [lookupRoom] at h
  | cons q rest ih =>
    obtain ⟨k, v⟩ := q
    by_cases hk : k = rid
    · subst hk
      rw [lookupRoom_cons_self] at h
      injection h with h
      rw [h]
      exact List.mem_cons_self _ _
    · rw [lookupRoom_cons_ne hk] at h
      exact List.mem_cons_of_mem _ (ih h)

theorem updateFirst_length (f : Player → Bool) (g : Player → Player) :
    ∀ l : List Player, (updateFirst f g l).length = l.length := by
  intro l
  induction l with
  | nil => rfl
  | cons p rest ih => by_cases hf : f p <;> simp [updateFirst, hf, ih]

theorem removeFirst_sublist (f : Player → Bool) :
    ∀ l : List Player, List.Sublist (removeFirst f l) l := by
  intro l
  induction l with
  | nil => exact List.Sublist.refl []
  | cons p rest ih =>
    by_cases hf : f p
    · rw [removeFirst, if_pos hf]
      exact List.sublist_cons_self p rest
    · rw [removeFirst, if_neg hf]
      exact List.Sublist.cons₂ p ih

theorem removeFirst_length_le (f : Player → Bool) (l : List Player) :
    (removeFirst f l).length ≤ l.length :=
  (removeFirst_sublist f l).length_le

/-- The per-room capacity bound, as a registry-wide invariant. -/
def Capped (R : Registry) : Prop :=
  ∀ p ∈ R, (p.2 : Room).players.length ≤ REQUIRED_PLAYERS

theorem capped_setRoom {R : Registry} {rid : String} {room : Room} (hR : Capped R)
    (hroom : room.players.length ≤ REQUIRED_PLAYERS) : Capped (setRoom rid room R) := by
  intro p hp
  rcases mem_setRoom hp with h | h
  · rw [h]; exact hroom
  · exact hR p h

theorem capped_check (now : Nat) (rid : String) (R : Registry) (hR : Capped R) :
    Capped (checkAndStartGame now rid R).1 := by
  unfold checkAndStartGame
  split
  · exact hR
  · rename_i room hlk
    split
    · split
      · exact capped_setRoom hR (hR _ (lookupRoom_mem hlk))
      · exact hR
    · exact hR

theorem capped_broadcastAndCheck (now : Nat) (rid : String) (players1 : List Player)
    (R1 : Registry) (h : Capped R1) : Capped (broadcastAndCheck now rid players1 R1).1 :=
  capped_check now rid R1 h

theorem capped_joinLogic (now : Nat) (s rid : String) (n : Option String)
    (room : Room) (R : Registry) (hR : Capped R) :
    Capped (joinLogic now s rid n room R).1 := by
  unfold joinLogic
  split
  · exact hR
  · split
    · exact hR
    · apply capped_broadcastAndCheck
      apply capped_setRoom hR
      rename_i h1 h2
      have hlen : room.players.length < REQUIRED_PLAYERS := Nat.lt_of_not_le h2
      simpa [List.length_append] using hlen

theorem capped_join (now : Nat) (s rid : String) (n : Option String) (R : Registry)
    (hR : Capped R) : Capped (join_room now s rid n R).1 := by
  unfold join_room
  split
  · exact capped_joinLogic now s rid n _ _ (capped_setRoom hR (Nat.zero_le _))
  · exact capped_joinLogic now s rid n _ _ hR

theorem capped_toggle (now : Nat) (s rid : String) (R : Registry) (hR : Capped R) :
    Capped (toggle_ready now s rid R).1 := by
  unfold toggle_ready
  split
  · exact hR
  · rename_i room hlk
    split
    · exact hR
    · apply capped_broadcastAndCheck
      apply capped_setRoom hR
      have := hR _ (lookupRoom_mem hlk)
      simpa [updateFirst_length] using this

theorem capped_kick (s rid t : String) (R : Registry) (hR : Capped R) :
    Capped (kick_player s rid t R).1 := by
  unfold kick_player
  split
  · exact hR
  · rename_i room hlk
    split
    · exact hR
    · split
      · split
        · exact hR
        · split
          · apply capped_setRoom hR
            have := hR _ (lookupRoom_mem hlk)
            exact le_trans (removeFirst_length_le _ _) this
          · exact hR
      · exact hR

theorem capped_update (now : Nat) (s rid : String) (sc : Int) (st : PStatus)
    (R : Registry) (hR : Capped R) : Capped (update_player now s rid sc st R).1 := by
  unfold update_player
  split
  · exact hR
  · rename_i room hlk
    split
    · exact hR
    · have hlen : (applyUpdate s sc st room.players).length ≤ REQUIRED_PLAYERS := by
        have := hR _ (lookupRoom_mem hlk)
        simpa [applyUpdate, updateFirst_length] using this
      split
      · exact capped_setRoom hR hlen
      · exact capped_setRoom hR hlen

theorem capped_reset (rid : String) (R : Registry) (hR : Capped R) :
    Capped (resetAction rid R).1 := by
  unfold resetAction
  split
  · exact hR
  · split
    · exact hR
    · split
      · intro p hp
        exact hR p (mem_eraseRoom hp)
      · apply capped_setRoom hR
        simp [REQUIRED_PLAYERS]

theorem capped_disconnect (s : String) :
    ∀ R : Registry, Capped R → Capped (disconnect s R).1 := by
  intro R
  induction R with
  | nil => intro h; simpa [disconnect] using h
  | cons q rest ih =>
    obtain ⟨k, v⟩ := q
    intro hR
    have hrest : Capped rest := fun p hp => hR p (List.mem_cons_of_mem _ hp)
    have hv : v.players.length ≤ REQUIRED_PLAYERS := hR (k, v) (List.mem_cons_self _ _)
    have ihr := ih hrest
    simp only [disconnect]
    by_cases hin : (v.players.any fun p => p.id == s) = true
    · rw [if_pos hin]
      by_cases hemp : removeFirst (fun p => p.id == s) v.players = []
      · rw [if_pos hemp]; exact ihr
      · rw [if_neg hemp]
        intro p hp
        rcases List.mem_cons.mp hp with h1 | h1
        · rw [h1]; exact le_trans (removeFirst_length_le _ _) hv
        · exact ihr p h1
    · rw [if_neg hin]
      intro p hp
      rcases List.mem_cons.mp hp with h1 | h1
      · rw [h1]; exact hv
      · exact ihr p h1

theorem capped_applyOp (now : Nat) (op : Op) (R : Registry) (hR : Capped R) :
    Capped (applyOp now op R).1 := by
  cases op with
  | join s rid n => exact capped_join now s rid n R hR
  | toggle s rid => exact capped_toggle now s rid R hR
  | kick s rid t => exact capped_kick s rid t R hR
  | update s rid sc st => exact capped_update now s rid sc st R hR
  | disc s => exact capped_disconnect s R hR
  | reset rid => exact capped_reset rid R hR

theorem reachable_capped (R : Registry) (hR : Reachable R) : Capped R := by
  induction hR with
  | init => intro p hp; simp at hp
  | next now op hprev ih => exact capped_applyOp now op _ ih

/-- Claim C1: in every reachable registry, every room's player list has at
most `REQUIRED_PLAYERS` entries — `join_room` rejects at capacity, and no
other operation (ready toggle, kick, update, disconnect, reset) ever grows
a player list beyond it. -/
theorem capacity_invariant (R : Registry) (hR : Reachable R) (rid : String)
    (room : Room) (h : lookupRoom rid R = some room) :
    room.players.length ≤ REQUIRED_PLAYERS :=
  reachable_capped R hR _ (lookupRoom_mem h)

/-- The registry reached by one join of "a" into room "r". -/
def regC1 : Registry := (applyOp 0 (Op.join "a" "r" none) []).1

/-- Witness for C1: the one-join registry is reachable and its room
respects the capacity bound. -/
theorem capacity_invariant_witness :
    ({ players := [newPlayer "a" none], status := RStatus.LOBBY } : Room).players.length ≤
      REQUIRED_PLAYERS :=
  capacity_invariant regC1 (Reachable.next 0 (Op.join "a" "r" none) Reachable.init)
    "r" { players := [newPlayer "a" none], status := RStatus.LOBBY } rfl

/-! ### Player-id uniqueness (claim C9) -/

theorem updateFirst_map_id (f : Player → Bool) (g : Player → Player)
    (hg : ∀ p, (g p).id = p.id) :
    ∀ l : List Player, (updateFirst f g l).map Player.id = l.map Player.id := by
  intro l
  induction l with
  | nil => rfl
  | cons p rest ih =>
    by_cases hf : f p
    · rw [updateFirst, if_pos hf]
      simp [hg]
    · rw [updateFirst, if_neg hf]
      simp [ih]

theorem removeFirst_nodup_ids (f : Player → Bool) (l : List Player)
    (h : (l.map Player.id).Nodup) :
    ((removeFirst f l).map Player.id).Nodup :=
  List.Nodup.sublist ((removeFirst_sublist f l).map Player.id) h

/-- Per-room uniqueness of player ids, as a registry-wide invariant. -/
def UniqueIds (R : Registry) : Prop :=
  ∀ p ∈ R, ((p.2 : Room).players.map Player.id).Nodup

/-- The freshness side condition of the amended claim C9: a join may only
add an identity not already present in the target room. -/
def joinFresh (op : Op) (R : Registry) : Prop :=
  match op with
  | Op.join s rid _ =>
    ∀ room, lookupRoom rid R = some room → s ∉ room.players.map Player.id
  | _ => True

/-- Registries reachable when every join satisfies the freshness condition. -/
inductive ReachableFresh : Registry → Prop where
  | init : ReachableFresh []
  | next (now : Nat) (op : Op) {R : Registry} :
      ReachableFresh R → joinFresh op R → ReachableFresh (applyOp now op R).1

theorem unique_setRoom {R : Registry} {rid : String} {room : Room} (hR : UniqueIds R)
    (hroom : (room.players.map Player.id).Nodup) : UniqueIds (setRoom rid room R) := by
  intro p hp
  rcases mem_setRoom hp with h | h
  · rw [h]; exact hroom
  · exact hR p h

theorem unique_check (now : Nat) (rid : String) (R : Registry) (hR : UniqueIds R) :
    UniqueIds (checkAndStartGame now rid R).1 := by
  unfold checkAndStartGame
  split
  · exact hR
  · rename_i room hlk
    split
    · split
      · exact unique_setRoom hR (hR _ (lookupRoom_mem hlk))
      · exact hR
    · exact hR

theorem unique_broadcastAndCheck (now : Nat) (rid : String) (players1 : List Player)
    (R1 : Registry) (h : UniqueIds R1) :
    UniqueIds (broadcastAndCheck now rid players1 R1).1 :=
  unique_check now rid R1 h

theorem unique_joinLogic (now : Nat) (s rid : String) (n : Option String)
    (room : Room) (R : Registry) (hR : UniqueIds R)
    (hroom : (room.players.map Player.id).Nodup)
    (hfresh : s ∉ room.players.map Player.id) :
    UniqueIds (joinLogic now s rid n room R).1 := by
  unfold joinLogic
  split
  · exact hR
  · split
    · exact hR
    · apply unique_broadcastAndCheck
      apply unique_setRoom hR
      simp only [List.map_append, List.map_cons, List.map_nil]
      rw [List.nodup_append]
      refine ⟨hroom, List.nodup_singleton _, ?_⟩
      intro a ha hb
      simp only [newPlayer, List.mem_singleton] at hb
      rw [hb] at ha
      exact hfresh ha

theorem unique_join (now : Nat) (s rid : String) (n : Option String) (R : Registry)
    (hR : UniqueIds R)
    (hfresh : ∀ room, lookupRoom rid R = some room → s ∉ room.players.map Player.id) :
    UniqueIds (join_room now s rid n R).1 := by
  unfold join_room
  split
  · exact unique_joinLogic now s rid n _ _
      (unique_setRoom hR (by simp)) (by simp) (by simp)
  · rename_i room hlk
    exact unique_joinLogic now s rid n room R hR (hR _ (lookupRoom_mem hlk))
      (hfresh room hlk)

theorem unique_toggle (now : Nat) (s rid : String) (R : Registry) (hR : UniqueIds R) :
    UniqueIds (toggle_ready now s rid R).1 := by
  unfold toggle_ready
  split
  · exact hR
  · rename_i room hlk
    split
    · exact hR
    · apply unique_broadcastAndCheck
      apply unique_setRoom hR
      have hm := updateFirst_map_id (fun p => p.id == s)
        (fun p => { p with isReady := !p.isReady }) (fun p => rfl) room.players
      simpa [hm] using hR _ (lookupRoom_mem hlk)

theorem unique_kick (s rid t : String) (R : Registry) (hR : UniqueIds R) :
    UniqueIds (kick_player s rid t R).1 := by
  unfold kick_player
  split
  · exact hR
  · rename_i room hlk
    split
    · exact hR
    · split
      · split
        · exact hR
        · split
          · apply unique_setRoom hR
            simpa using removeFirst_nodup_ids _ room.players (hR _ (lookupRoom_mem hlk))
          · exact hR
      · exact hR

theorem unique_update (now : Nat) (s rid : String) (sc : Int) (st : PStatus)
    (R : Registry) (hR : UniqueIds R) : UniqueIds (update_player now s rid sc st R).1 := by
  unfold update_player
  split
  · exact hR
  · rename_i room hlk
    split
    · exact hR
    · have hm := updateFirst_map_id (fun p => p.id == s)
        (fun p => { p with score := sc, status := st }) (fun p => rfl) room.players
      have hnd : ((applyUpdate s sc st room.players).map Player.id).Nodup := by
        simpa [applyUpdate, hm] using hR _ (lookupRoom_mem hlk)
      split
      · exact unique_setRoom hR hnd
      · exact unique_setRoom hR hnd

theorem unique_reset (rid : String) (R : Registry) (hR : UniqueIds R) :
    UniqueIds (resetAction rid R).1 := by
  unfold resetAction
  split
  · exact hR
  · split
    · exact hR
    · split
      · intro p hp
        exact hR p (mem_eraseRoom hp)
      · apply unique_setRoom hR
        simp

theorem unique_disconnect (s : String) :
    ∀ R : Registry, UniqueIds R → UniqueIds (disconnect s R).1 := by
  intro R
  induction R with
  | nil => intro h; exact h
  | cons q rest ih =>
    obtain ⟨k, v⟩ := q
    intro hR
    have hrest : UniqueIds rest := fun p hp => hR p (List.mem_cons_of_mem _ hp)
    have hv := hR (k, v) (List.mem_cons_self _ _)
    have ihr := ih hrest
    simp only [disconnect]
    by_cases hin : (v.players.any fun p => p.id == s) = true
    · rw [if_pos hin]
      by_cases hemp : removeFirst (fun p => p.id == s) v.players = []
      · rw [if_pos hemp]; exact ihr
      · rw [if_neg hemp]
        intro p hp
        rcases List.mem_cons.mp hp with h1 | h1
        · rw [h1]; exact removeFirst_nodup_ids _ v.players hv
        · exact ihr p h1
    · rw [if_neg hin]
      intro p hp
      rcases List.mem_cons.mp hp with h1 | h1
      · rw [h1]; exact hv
      · exact ihr p h1

theorem unique_applyOp (now : Nat) (op : Op) (R : Registry) (hR : UniqueIds R)
    (hf : joinFresh op R) : UniqueIds (applyOp now op R).1 := by
  cases op with
  | join s rid n => exact unique_join now s rid n R hR hf
  | toggle s rid => exact unique_toggle now s rid R hR
  | kick s rid t => exact unique_kick s rid t R hR
  | update s rid sc st => exact unique_update now s rid sc st R hR
  | disc s => exact unique_disconnect s R hR
  | reset rid => exact unique_reset rid R hR

theorem reachableFresh_unique (R : Registry) (hR : ReachableFresh R) :
    UniqueIds R := by
  induction hR with
  | init => intro p hp; simp at hp
  | next now op hprev hf ih => exact unique_applyOp now op _ ih hf

/-- The registry reached when "a" joins room "r" twice in a row. -/
def dupReg : Registry :=
  (applyOp 0 (Op.join "a" "r" none) (applyOp 0 (Op.join "a" "r" none) []).1).1

/-- Counterexample to claim C9 as stated: the state after connection "a"
issues join_room for room "r" twice is reachable, yet the room then holds
two players with the same id "a" — the join handler never checks whether
the joining identity is already in the room. -/
theorem unique_ids_counterexample :
    Reachable dupReg ∧
    lookupRoom "r" dupReg =
      some { players := [newPlayer "a" none, newPlayer "a" none],
             status := RStatus.LOBBY } ∧
    ¬ (([newPlayer "a" none, newPlayer "a" none].map Player.id).Nodup) :=
  ⟨Reachable.next 0 (Op.join "a" "r" none)
      (Reachable.next 0 (Op.join "a" "r" none) Reachable.init),
   rfl, by decide⟩

/-- Amended claim C9: player ids stay unique within every room over any
operation sequence in which each join_room adds an identity not already
present in the target room — toggle_ready, kick_player, update_player,
disconnect and the reset action preserve uniqueness unconditionally, and
join_room preserves it exactly under that freshness side condition (a
repeated join by an identity already in the room duplicates it, see the
counterexample). -/
theorem unique_ids_fresh_joins (R : Registry) (hR : ReachableFresh R)
    (rid : String) (room : Room) (h : lookupRoom rid R = some room) :
    (room.players.map Player.id).Nodup :=
  reachableFresh_unique R hR _ (lookupRoom_mem h)

/-- Witness for amended C9: after one fresh join the room's ids are unique. -/
theorem unique_ids_fresh_joins_witness :
    (([newPlayer "a" none] : List Player).map Player.id).Nodup :=
  unique_ids_fresh_joins (applyOp 0 (Op.join "a" "r" none) []).1
    (ReachableFresh.next 0 (Op.join "a" "r" none) ReachableFresh.init
      (fun _ h => nomatch h))
    "r" { players := [newPlayer "a" none], status := RStatus.LOBBY } rfl

end DKA
